import Mathlib

/-!
Verification development for the project work-manager application
(`src/app.py`).  The application keeps a flat table of video-production
projects in a spreadsheet; its core logic is

* `load_data` (app.py lines 56-72): normalises the raw table into a
  canonical frame with the 15 required columns,
* the view filter (lines 171-187): year/month/owner scoping and the
  active/completed split,
* the D-day urgency computation (lines 196-227),
* the create/update/delete mutators (lines 146-161, 264-288).

Raw tabular data is modelled as a `Frame`: a list of column names plus a
list of rows, each row a list of cells aligned with the columns; a cell is
`Option String`, `none` standing for a pandas NaN (missing value).
Records after year/month coercion are modelled by the structure `Project`.
-/

namespace MpvWork

/-- One cell of the raw table: `none` models pandas NaN. -/
abbrev Cell := Option String

/-- One raw row, cells aligned positionally with the column list. -/
abbrev Row := List Cell

/-- Raw tabular data: columns plus rows (a pandas DataFrame). -/
structure Frame where
  cols : List String
  rows : List Row
deriving DecidableEq

/-- A frame is rectangular: every row has one cell per column. -/
def WF (f : Frame) : Prop := ∀ r ∈ f.rows, r.length = f.cols.length

instance (f : Frame) : Decidable (WF f) :=
  List.decidableBAll (fun (r : Row) => r.length = f.cols.length) f.rows

/-- The 15 required columns, in the fixed order of app.py line 58. -/
def default_columns : List String :=
  ["년도", "월", "프로젝트명", "설명", "진행상태", "담당PD",
   "기획", "촬영", "편집", "디자인", "CG", "색보정", "SFX", "BGM", "시사"]

/-- The fixed status vocabulary, in display order (app.py line 116). -/
def status_options : List String :=
  ["기획", "촬영", "컷편집", "그래픽", "음향", "수정", "시사", "완료", "보류"]

/-- Index of the first column named `c`, the column addressing used by
pandas label access in the model. -/
def findCol (c : String) : List String → Option Nat
  | [] => none
  | x :: xs => if x = c then some 0 else (findCol c xs).map (· + 1)

/-- Cell of row `r` in column `c`, given the column list. -/
def cellAt (cols : List String) (r : Row) (c : String) : Cell :=
  match findCol c cols with
  | none => none
  | some i => (r[i]?).getD none

/-- Step one of `load_data`: `df.dropna(how=..all..)` drops the rows whose
cells are all NaN (app.py line 64). -/
def dropBlankRows (f : Frame) : Frame :=
  { f with rows := f.rows.filter (fun r => r.any (fun c => c.isSome)) }

/-- A column index survives `dropna(axis=1, how=..all..)` iff some row has a
non-NaN cell there. -/
def colKeep (rows : List Row) (i : Nat) : Bool :=
  rows.any (fun r => ((r[i]?).getD none).isSome)

/-- Keep the entries of a list whose position satisfies `P`, starting the
position count at `n`. -/
def selectIdx {α : Type} (P : Nat → Bool) : Nat → List α → List α
  | _, [] => []
  | n, a :: l => if P n then a :: selectIdx P (n + 1) l else selectIdx P (n + 1) l

/-- Step two of `load_data`: `df.dropna(axis=1, how=..all..)` drops the
columns whose cells are all NaN (app.py line 64). -/
def dropBlankCols (f : Frame) : Frame :=
  { cols := selectIdx (colKeep f.rows) 0 f.cols,
    rows := f.rows.map (fun r => selectIdx (colKeep f.rows) 0 r) }

/-- The Python statement `df[col] = ""` for one absent required column:
append the column with an empty-string cell in every row (app.py 65-67). -/
def addCol (f : Frame) (c : String) : Frame :=
  if c ∈ f.cols then f
  else { cols := f.cols ++ [c], rows := f.rows.map (fun r => r ++ [some ""]) }

/-- Step three of `load_data`: add every required column that is absent
after the noise removal (app.py lines 65-67). -/
def addMissing (f : Frame) : Frame := default_columns.foldl addCol f

/-- The cell transformation of `df.fillna("")`: NaN becomes the empty
string (app.py line 68). -/
def fillnaRow (r : Row) : Row := r.map (fun c => some (c.getD ""))

/-- Step four of `load_data`: `df.fillna("")` (app.py line 68). -/
def fillna (f : Frame) : Frame := { f with rows := f.rows.map fillnaRow }

/-- The cell transformation of `.replace(.., ..기획..)`: an empty-string
status becomes the default status (app.py line 69). -/
def statusRepl (c : Cell) : Cell := if c = some "" then some "기획" else c

/-- Apply `statusRepl` to the cell at position `i` of a row. -/
def statusFix : Nat → Row → Row
  | _, [] => []
  | 0, c :: r => statusRepl c :: r
  | i + 1, c :: r => c :: statusFix i r

/-- Step five of `load_data`: replace empty statuses by the default value
in the status column (app.py line 69). -/
def fillStatus (f : Frame) : Frame :=
  match findCol "진행상태" f.cols with
  | none => f
  | some i => { f with rows := f.rows.map (statusFix i) }

/-- The Loader (app.py lines 56-72).  The input is `none` when reading or
normalising the sheet raises (the except branch, line 71); `some f` is the
frame returned by `get_as_dataframe`.  An empty raw frame is replaced by an
empty frame with the default columns (line 62); otherwise the
normalisation pipeline runs.  The function is total: the Loader never
raises to its caller. -/
def load_data (input : Option Frame) : Frame :=
  match input with
  | none => { cols := default_columns, rows := [] }
  | some f =>
    if f.rows.isEmpty || f.cols.isEmpty then { cols := default_columns, rows := [] }
    else fillStatus (fillna (addMissing (dropBlankCols (dropBlankRows f))))

/-! ### Dates and the D-day (urgency) computation -/

/-- A calendar date, as produced by `datetime.strptime(.., ..).date()`. -/
structure Date where
  y : Int
  m : Nat
  d : Nat
deriving DecidableEq

/-- Gregorian leap-year test. -/
def isLeap (y : Int) : Bool := (y % 4 == 0 && !(y % 100 == 0)) || y % 400 == 0

/-- Length of month `m` in year `y`. -/
def daysInMonth (y : Int) (m : Nat) : Nat :=
  if m = 2 then (if isLeap y then 29 else 28)
  else if m = 4 || m = 6 || m = 9 || m = 11 then 30 else 31

/-- Day number of a date (days since 1970-01-01, standard civil-calendar
conversion); differences of `toDays` model Python date subtraction. -/
def toDays (dt : Date) : Int :=
  let y : Int := if dt.m ≤ 2 then dt.y - 1 else dt.y
  let era : Int := y / 400
  let yoe : Int := y - era * 400
  let mp : Nat := (dt.m + 9) % 12
  let doy : Int := (((153 * mp + 2) / 5 : Nat) : Int) + ((dt.d : Int) - 1)
  let doe : Int := yoe * 365 + yoe / 4 - yoe / 100 + doy
  era * 146097 + doe - 719468

/-- Python whitespace test for `str.strip`. -/
def isWs (c : Char) : Bool :=
  c = ' ' || c = '\t' || c = '\n' || c = '\r' || c = '\x0b' || c = '\x0c'

/-- The character list of `s.strip()`. -/
def trimL (cs : List Char) : List Char :=
  ((cs.dropWhile isWs).reverse.dropWhile isWs).reverse

/-- Numeric value of a non-empty all-digit character list, else `none`. -/
def natOfDigits : List Char → Option Nat
  | [] => none
  | cs => go cs 0
where
  go : List Char → Nat → Option Nat
    | [], acc => some acc
    | c :: rest, acc => if c.isDigit then go rest (acc * 10 + (c.toNat - 48)) else none

/-- Split a character list on the hyphen character. -/
def splitDash (cs : List Char) : List (List Char) := go cs []
where
  go : List Char → List Char → List (List Char)
    | [], acc => [acc.reverse]
    | c :: rest, acc => if c = '-' then acc.reverse :: go rest [] else go rest (c :: acc)

/-- Model of `datetime.strptime(s, "%Y-%m-%d").date()` (app.py line 210):
exactly three hyphen-separated digit groups, the year of exactly four
digits and at least 1, the month and day of one or two digits, the month
1..12 and the day valid for the month; any other input raises, which the
caller swallows (modelled as `none`). -/
def parse_date (s : String) : Option Date :=
  match splitDash s.data with
  | [ys, ms, ds] =>
    match natOfDigits ys, natOfDigits ms, natOfDigits ds with
    | some y, some m, some d =>
      if ys.length = 4 ∧ 1 ≤ y ∧ (ms.length = 1 ∨ ms.length = 2) ∧
          1 ≤ m ∧ m ≤ 12 ∧ (ds.length = 1 ∨ ds.length = 2) ∧
          1 ≤ d ∧ d ≤ daysInMonth (y : Int) m
      then some ⟨(y : Int), m, d⟩ else none
    | _, _, _ => none
  | _ => none

/-- The guard plus parse of app.py lines 208-210: a blank (all-whitespace)
preview-date string is not parsed at all; otherwise parse it, `none` on
failure. -/
def sisa_parse (s : String) : Option Date :=
  if trimL s.data = [] then none else parse_date s

/-- The Urgency Calculator (app.py lines 203-221): from the raw
preview-date cell and today, the D-day display string and the date-urgency
flag. -/
def dday (s : String) (today : Date) : String × Bool :=
  match sisa_parse s with
  | none => ("", false)
  | some dt =>
    let days_left : Int := toDays dt - toDays today
    if days_left < 0 then ("(D+" ++ toString days_left.natAbs ++ ")", false)
    else if days_left = 0 then ("(D-Day)", true)
    else ("(D-" ++ toString days_left ++ ")", decide (days_left ≤ 3))

/-! ### Canonical records, view filter and mutators -/

/-- One canonical project record after the year/month coercion of app.py
lines 92-93 (fields in the order of the 15 required columns). -/
structure Project where
  year : Int
  month : Int
  name : String
  desc : String
  status : String
  pd : String
  plan : String
  shoot : String
  edit : String
  design : String
  cg : String
  color : String
  sfx : String
  bgm : String
  sisa : String
deriving DecidableEq

/-- The year/month/owner scope filter of app.py lines 171-179: records of
the selected year and month, further restricted to the selected owner when
the owner selector is not the sentinel value. -/
def scope_set (df : List Project) (selYear selMonth : Int) (selPd : String) : List Project :=
  let ym := df.filter (fun r => r.year == selYear && r.month == selMonth)
  if selPd ≠ "전체" then ym.filter (fun r => r.pd == selPd) else ym

/-- The in-progress view (app.py line 183): scoped records whose status is
not the terminal value. -/
def active_df (df : List Project) (selYear selMonth : Int) (selPd : String) : List Project :=
  (scope_set df selYear selMonth selPd).filter (fun r => !(r.status == "완료"))

/-- The completed view (app.py line 184): scoped records whose status is
the terminal value. -/
def completed_df (df : List Project) (selYear selMonth : Int) (selPd : String) : List Project :=
  (scope_set df selYear selMonth selPd).filter (fun r => r.status == "완료")

/-- The condition of app.py line 224 that selects the urgent display: the
date-urgency flag, forced off for records whose status is the terminal
value. -/
def render_urgent (r : Project) (today : Date) : Bool :=
  (dday r.sisa today).2 && !(r.status == "완료")

/-- A create request: the widget values of the new-project form
(app.py lines 135-144); the date widget yields `none` when left empty. -/
structure CreateReq where
  year : Int
  month : Int
  name : String
  desc : String
  status : String
  pd : String
  sisa : Option Date

/-- Zero-pad a numeral string to the given width. -/
def padZero (w : Nat) (s : String) : String :=
  if s.length ≥ w then s else String.mk (List.replicate (w - s.length) '0') ++ s

/-- Python `str(d)` on a `datetime.date`: ISO form with zero padding. -/
def dateStr (dt : Date) : String :=
  padZero 4 (toString dt.y) ++ "-" ++ padZero 2 (toString dt.m) ++ "-" ++ padZero 2 (toString dt.d)

/-- The record built by the create branch (app.py lines 150-155): the form
fields verbatim, every stage field the empty string, the preview date
rendered by `str` or empty when not given. -/
def mkRecord (q : CreateReq) : Project :=
  { year := q.year, month := q.month, name := q.name, desc := q.desc,
    status := q.status, pd := q.pd,
    plan := "", shoot := "", edit := "", design := "", cg := "", color := "",
    sfx := "", bgm := "",
    sisa := (match q.sisa with | some dt => dateStr dt | none => "") }

/-- The create operation (app.py lines 146-161).  The first component is
the canonical set afterwards; the second lists the arguments of every
`save_data` call made (empty list = no persist). -/
def create (df : List Project) (q : CreateReq) : List Project × List (List Project) :=
  if trimL q.name.data = [] then (df, [])
  else
    let nd := df ++ [mkRecord q]
    (nd, [nd])

/-- The editable fields of the per-record edit form (app.py lines
238-262): exactly the twelve fields written by the update branch. -/
structure EditFields where
  status : String
  desc : String
  pd : String
  plan : String
  shoot : String
  edit : String
  design : String
  cg : String
  color : String
  sfx : String
  bgm : String
  sisa : Option Date

/-- The twelve `df.at` writes of app.py lines 265-276 applied to one
record; year, month and name are not assigned. -/
def applyEdit (r : Project) (e : EditFields) : Project :=
  { r with
    status := e.status
    desc := e.desc
    pd := e.pd
    plan := e.plan
    shoot := e.shoot
    edit := e.edit
    design := e.design
    cg := e.cg
    color := e.color
    sfx := e.sfx
    bgm := e.bgm
    sisa := (match e.sisa with | some dt => dateStr dt | none => "") }

/-- The update operation (app.py lines 264-279): overwrite the record at
position `p` with the edited fields.  The UI obtains `p` from the render
loop, so it always addresses an existing row. -/
def updateAt (df : List Project) (p : Nat) (e : EditFields) : List Project :=
  match df[p]? with
  | some r => df.set p (applyEdit r e)
  | none => df

/-- The delete operation (app.py lines 284-288): `df.drop` removes the row
at position `p`; a position out of range raises KeyError before any
mutation, modelled as `none`. -/
def deleteAt (df : List Project) (p : Nat) : Option (List Project) :=
  if p < df.length then some (df.eraseIdx p) else none

/-! ### Concrete fixtures used by witnesses and counterexamples -/

/-- Fixture: an in-progress project of 2024-05. -/
def pA : Project :=
  ⟨2024, 5, "촬영중 프로젝트", "", "촬영", "김PD", "", "", "", "", "", "", "", "", "2024-05-10"⟩

/-- Fixture: a finished project of 2024-05 whose preview date is set. -/
def pB : Project :=
  ⟨2024, 5, "끝난 프로젝트", "", "완료", "이PD", "", "", "", "", "", "", "", "", "2024-05-10"⟩

/-- Fixture: a project of another month. -/
def pC : Project :=
  ⟨2023, 12, "작년 프로젝트", "", "기획", "김PD", "", "", "", "", "", "", "", "", ""⟩

/-- Fixture: two further projects to build a five-record set. -/
def pD : Project :=
  ⟨2024, 5, "네번째", "", "편집", "박PD", "", "", "", "", "", "", "", "", ""⟩

/-- Fixture: fifth record of the five-record set. -/
def pE : Project :=
  ⟨2024, 5, "다섯째", "", "보류", "최PD", "", "", "", "", "", "", "", "", ""⟩

/-- Fixture: a three-record canonical set. -/
def dfW : List Project := [pA, pB, pC]

/-- Fixture: a five-record canonical set, for the delete scenario. -/
def dfW5 : List Project := [pA, pB, pC, pD, pE]

/-- Fixture: a create request whose name is blank after trimming. -/
def qBlank : CreateReq := ⟨2024, 5, "   ", "설명", "기획", "", none⟩

/-- Fixture: a valid create request. -/
def qOk : CreateReq := ⟨2024, 5, "새 프로젝트", "설명", "기획", "김PD", none⟩

/-- Fixture: a create request whose name carries surrounding whitespace. -/
def qWs : CreateReq := ⟨2024, 5, "  여백 프로젝트  ", "", "기획", "김PD", none⟩

/-- Fixture: an edit-form submission. -/
def eW : EditFields :=
  ⟨"완료", "새 설명", "박PD", "a", "b", "c", "d", "e", "f", "g", "h", some ⟨2024, 6, 1⟩⟩

/-- Fixture: a raw frame whose one row has every cell present and an
unrecognized status value. -/
def rawMixedRow : Row :=
  [some "2024", some "5", some "프로젝트A", some "", some "미정", some "김PD",
   some "", some "", some "", some "", some "", some "", some "", some "", some ""]

/-- Fixture: the raw frame wrapping `rawMixedRow`. -/
def rawMixedFrame : Frame := ⟨default_columns, [rawMixedRow]⟩

/-- Fixture: a raw frame whose status cell is missing (NaN). -/
def rawBlankStatusFrame : Frame :=
  ⟨default_columns,
   [[some "2024", some "5", some "P", some "", none, some "김PD",
     some "", some "", some "", some "", some "", some "", some "", some "", some ""]]⟩

/-- Fixture: the canonical row `load_data` produces from
`rawBlankStatusFrame`: the all-blank status column was dropped as noise,
re-added at the end, and its empty cell became the default status. -/
def loadedBlankStatusRow : Row :=
  [some "2024", some "5", some "P", some "", some "김PD",
   some "", some "", some "", some "", some "", some "", some "", some "",
   some "", some "기획"]

/-- Fixture: a small raw frame with noise (a fully blank row, a fully
blank column) and most required columns absent. -/
def rawShapeFrame : Frame :=
  ⟨["년도", "노이즈", "진행상태"],
   [[some "2024", none, none], [none, none, none]]⟩

/-- Fixture: the row of `rawShapeFrame` after noise removal and the
column-completion step (14 required columns appended with empty cells). -/
def addedRow : Row :=
  [some "2024", some "", some "", some "", some "", some "", some "", some "",
   some "", some "", some "", some "", some "", some "", some ""]

/-! ### Helper lemmas about the frame combinators -/

theorem findCol_eq_none (c : String) (l : List String) : findCol c l = none ↔ c ∉ l := by
  induction l with
  | nil => simp [findCol]
  | cons x xs ih =>
    by_cases hx : x = c
    · simp [findCol, hx]
    · have hcx : ¬c = x := fun h => hx h.symm
      simp [findCol, hx, hcx, Option.map_eq_none', ih]

theorem findCol_lt_length (c : String) (l : List String) (i : Nat)
    (h : findCol c l = some i) : i < l.length := by
  induction l generalizing i with
  | nil => simp [findCol] at h
  | cons x xs ih =>
    by_cases hx : x = c
    · simp [findCol, hx] at h
      simp [List.length_cons]
      omega
    · simp [findCol, hx, Option.map_eq_some'] at h
      obtain ⟨j, hj, rfl⟩ := h
      have := ih j hj
      simp [List.length_cons]
      omega

theorem findCol_append_left (c : String) (l₁ l₂ : List String) (i : Nat)
    (h : findCol c l₁ = some i) : findCol c (l₁ ++ l₂) = some i := by
  induction l₁ generalizing i with
  | nil => simp [findCol] at h
  | cons x xs ih =>
    by_cases hx : x = c
    · rw [List.cons_append, findCol, if_pos hx]
      rw [findCol, if_pos hx] at h
      exact h
    · simp only [findCol, hx, if_false, Option.map_eq_some'] at h
      obtain ⟨j, hj, rfl⟩ := h
      rw [List.cons_append, findCol, if_neg hx, ih j hj]
      rfl

theorem findCol_append_none (c : String) (l₁ l₂ : List String)
    (h : findCol c l₁ = none) :
    findCol c (l₁ ++ l₂) = (findCol c l₂).map (· + l₁.length) := by
  induction l₁ with
  | nil =>
    simp only [List.nil_append, List.length_nil]
    cases findCol c l₂ <;> simp
  | cons x xs ih =>
    by_cases hx : x = c
    · simp [findCol, hx] at h
    · have h2 : findCol c xs = none := by
        simpa [findCol, hx, Option.map_eq_none'] using h
      have hstep : findCol c ((x :: xs) ++ l₂) = (findCol c (xs ++ l₂)).map (· + 1) := by
        simp [findCol, hx]
      rw [hstep, ih h2]
      cases findCol c l₂ with
      | none => rfl
      | some v =>
        simp only [Option.map_some', Option.some.injEq, List.length_cons]
        omega

theorem selectIdx_length_eq {α β : Type} (P : Nat → Bool) (n : Nat)
    (l₁ : List α) (l₂ : List β) (h : l₁.length = l₂.length) :
    (selectIdx P n l₁).length = (selectIdx P n l₂).length := by
  induction l₁ generalizing n l₂ with
  | nil => cases l₂ with
    | nil => rfl
    | cons b t => simp at h
  | cons a l ih =>
    cases l₂ with
    | nil => simp at h
    | cons b t =>
      simp only [List.length_cons, Nat.succ.injEq] at h
      by_cases hp : P n <;> simp [selectIdx, hp, ih (n + 1) t h]

theorem statusFix_length (i : Nat) (r : Row) : (statusFix i r).length = r.length := by
  induction r generalizing i with
  | nil => cases i <;> rfl
  | cons c t ih =>
    cases i with
    | zero => simp [statusFix]
    | succ j => simp [statusFix, ih]

theorem statusFix_getElem_self (i : Nat) (r : Row) :
    (statusFix i r)[i]? = (r[i]?).map statusRepl := by
  induction i generalizing r with
  | zero => cases r with
    | nil => simp [statusFix]
    | cons c t => simp [statusFix]
  | succ j ih =>
    cases r with
    | nil => simp [statusFix]
    | cons c t => simp [statusFix, ih]

theorem statusFix_mem (i : Nat) (r : Row) (x : Cell) (h : x ∈ statusFix i r) :
    x ∈ r ∨ x = some "기획" := by
  induction r generalizing i with
  | nil => simp [statusFix] at h
  | cons c t ih =>
    cases i with
    | zero =>
      simp only [statusFix, List.mem_cons] at h
      rcases h with h | h
      · unfold statusRepl at h
        split at h
        · exact Or.inr h
        · exact Or.inl (h ▸ List.mem_cons_self c t)
      · exact Or.inl (List.mem_cons_of_mem c h)
    | succ j =>
      simp only [statusFix, List.mem_cons] at h
      rcases h with h | h
      · exact Or.inl (h ▸ List.mem_cons_self c t)
      · rcases ih j h with h2 | h2
        · exact Or.inl (List.mem_cons_of_mem c h2)
        · exact Or.inr h2

theorem fillnaRow_getElem (r : Row) (i : Nat) :
    (fillnaRow r)[i]? = (r[i]?).map (fun c => some (c.getD "")) := by
  simp [fillnaRow, List.getElem?_map]

theorem fillnaRow_isSome (r : Row) (x : Cell) (h : x ∈ fillnaRow r) : x.isSome = true := by
  simp only [fillnaRow, List.mem_map] at h
  obtain ⟨c, _, rfl⟩ := h
  rfl

theorem wf_dropBlankRows (f : Frame) (h : WF f) : WF (dropBlankRows f) := by
  intro r hr
  exact h r (List.mem_of_mem_filter hr)

theorem wf_dropBlankCols (f : Frame) (h : WF f) : WF (dropBlankCols f) := by
  intro r hr
  simp only [dropBlankCols, List.mem_map] at hr
  obtain ⟨r₀, hr₀, rfl⟩ := hr
  exact selectIdx_length_eq (colKeep f.rows) 0 r₀ f.cols (h r₀ hr₀)

theorem wf_addCol (f : Frame) (c : String) (h : WF f) : WF (addCol f c) := by
  unfold addCol
  by_cases hc : c ∈ f.cols
  · simpa [hc] using h
  · simp only [hc, if_false]
    intro r hr
    simp only [List.mem_map] at hr
    obtain ⟨r₀, hr₀, rfl⟩ := hr
    simp [h r₀ hr₀]

theorem wf_foldl_addCol (cs : List String) (f : Frame) (h : WF f) :
    WF (cs.foldl addCol f) := by
  induction cs generalizing f with
  | nil => exact h
  | cons a as ih => exact ih (addCol f a) (wf_addCol f a h)

theorem wf_fillna (f : Frame) (h : WF f) : WF (fillna f) := by
  intro r hr
  simp only [fillna, List.mem_map] at hr
  obtain ⟨r₀, hr₀, rfl⟩ := hr
  simpa [fillnaRow] using h r₀ hr₀

theorem fillna_cols (f : Frame) : (fillna f).cols = f.cols := rfl

theorem fillStatus_cols (f : Frame) : (fillStatus f).cols = f.cols := by
  unfold fillStatus
  cases findCol "진행상태" f.cols <;> rfl

theorem wf_fillStatus (f : Frame) (h : WF f) : WF (fillStatus f) := by
  unfold fillStatus
  cases hf : findCol "진행상태" f.cols with
  | none => exact h
  | some i =>
    intro r hr
    simp only [List.mem_map] at hr
    obtain ⟨r₀, hr₀, rfl⟩ := hr
    simpa [statusFix_length] using h r₀ hr₀

theorem mem_addCol_self (f : Frame) (c : String) : c ∈ (addCol f c).cols := by
  unfold addCol
  by_cases hc : c ∈ f.cols
  · simp [hc]
  · simp [hc]

theorem mem_addCol_mono (f : Frame) (c x : String) (h : x ∈ f.cols) :
    x ∈ (addCol f c).cols := by
  unfold addCol
  by_cases hc : c ∈ f.cols
  · simpa [hc] using h
  · simp [hc, h]

theorem mem_foldl_addCol_mono (cs : List String) (f : Frame) (x : String)
    (h : x ∈ f.cols) : x ∈ (cs.foldl addCol f).cols := by
  induction cs generalizing f with
  | nil => exact h
  | cons a as ih => exact ih (addCol f a) (mem_addCol_mono f a x h)

theorem mem_foldl_addCol (cs : List String) (f : Frame) (c : String) (h : c ∈ cs) :
    c ∈ (cs.foldl addCol f).cols := by
  induction cs generalizing f with
  | nil => simp at h
  | cons a as ih =>
    rcases List.mem_cons.mp h with rfl | h2
    · exact mem_foldl_addCol_mono as (addCol f c) c (mem_addCol_self f c)
    · exact ih (addCol f a) h2


theorem addCol_cellEmpty (f : Frame) (hwf : WF f) (c x : String)
    (h : ∀ r ∈ f.rows, c ∈ f.cols → cellAt f.cols r c = some "") :
    ∀ r ∈ (addCol f x).rows, c ∈ (addCol f x).cols →
      cellAt (addCol f x).cols r c = some "" := by
  unfold addCol
  by_cases hct : x ∈ f.cols
  · simpa [hct] using h
  · simp only [hct, if_false]
    intro r hr hc
    simp only [List.mem_map] at hr
    obtain ⟨r₀, hr₀, rfl⟩ := hr
    have hr0len : r₀.length = f.cols.length := hwf r₀ hr₀
    by_cases hcf : c ∈ f.cols
    · cases hfind : findCol c f.cols with
      | none => exact absurd hcf (by rwa [← findCol_eq_none c f.cols])
      | some i =>
        have hlt : i < f.cols.length := findCol_lt_length c f.cols i hfind
        have happ := findCol_append_left c f.cols [x] i hfind
        have hcell := h r₀ hr₀ hcf
        simp only [cellAt, hfind] at hcell
        simp only [cellAt, happ]
        rw [List.getElem?_append_left (by omega)]
        exact hcell
    · have hx : c = x := by
        rcases List.mem_append.mp hc with h1 | h1
        · exact absurd h1 hcf
        · simpa using h1
      subst hx
      have hnone : findCol c f.cols = none := (findCol_eq_none c f.cols).mpr hcf
      have happ := findCol_append_none c f.cols [c] hnone
      have hone : findCol c [c] = some 0 := by simp [findCol]
      rw [hone] at happ
      simp only [cellAt, happ, Option.map_some', Nat.zero_add]
      rw [← hr0len, List.getElem?_concat_length]
      rfl

theorem foldl_addCol_cellEmpty (cs : List String) (f : Frame) (hwf : WF f) (c : String)
    (h : ∀ r ∈ f.rows, c ∈ f.cols → cellAt f.cols r c = some "") :
    ∀ r ∈ (cs.foldl addCol f).rows, c ∈ (cs.foldl addCol f).cols →
      cellAt (cs.foldl addCol f).cols r c = some "" := by
  induction cs generalizing f with
  | nil => exact h
  | cons a as ih =>
    exact ih (addCol f a) (wf_addCol f a hwf) (addCol_cellEmpty f hwf c a h)

theorem pipeline_cells_isSome (h1 : Frame) :
    ∀ r ∈ (fillStatus (fillna h1)).rows, ∀ x ∈ r, x.isSome = true := by
  intro r hr x hx
  unfold fillStatus at hr
  cases hf : findCol "진행상태" (fillna h1).cols with
  | none =>
    rw [hf] at hr
    simp only [fillna, List.mem_map] at hr
    obtain ⟨r₀, _, rfl⟩ := hr
    exact fillnaRow_isSome r₀ x hx
  | some i =>
    rw [hf] at hr
    simp only [fillna, List.mem_map] at hr
    obtain ⟨r₂, hr₂, rfl⟩ := hr
    obtain ⟨r₀, _, rfl⟩ := hr₂
    rcases statusFix_mem i (fillnaRow r₀) x hx with h2 | h2
    · exact fillnaRow_isSome r₀ x h2
    · rw [h2]
      rfl

theorem pipeline_status_filled (h1 : Frame) (hwf1 : WF h1)
    (hmem : "진행상태" ∈ h1.cols) :
    ∀ r ∈ (fillStatus (fillna h1)).rows,
      ∃ s, cellAt (fillStatus (fillna h1)).cols r "진행상태" = some s ∧ s ≠ "" := by
  intro r hr
  cases hfind : findCol "진행상태" h1.cols with
  | none => exact absurd ((findCol_eq_none _ _).mp hfind) (by simp [hmem])
  | some i =>
    have hfind2 : findCol "진행상태" (fillna h1).cols = some i := hfind
    unfold fillStatus at hr ⊢
    rw [hfind2] at hr ⊢
    simp only [fillna, List.mem_map] at hr
    obtain ⟨r₂, hr₂, rfl⟩ := hr
    obtain ⟨r₁, hr₁, rfl⟩ := hr₂
    simp only [cellAt, hfind2]
    rw [statusFix_getElem_self, fillnaRow_getElem]
    have hlen : r₁.length = h1.cols.length := hwf1 r₁ hr₁
    have hil : i < r₁.length := by
      rw [hlen]
      exact findCol_lt_length _ _ _ hfind
    cases hc0 : r₁[i]? with
    | none =>
      rw [List.getElem?_eq_none_iff] at hc0
      omega
    | some c₀ =>
      simp only [hc0, Option.map_some']
      by_cases hcv : c₀.getD "" = ""
      · exact ⟨"기획", by simp [statusRepl, hcv], by decide⟩
      · exact ⟨c₀.getD "", by simp [statusRepl, hcv], hcv⟩

/-! ### Claim theorems -/

/-- Claim C1: for every canonical record set and every selector triple,
the `active` and `completed` views partition the scope set exactly — every
scoped record is in exactly one of the two, `active` holds exactly the
scoped records whose status is not the terminal value, `completed` exactly
those whose status equals it, and the lengths add up. -/
theorem view_partition (df : List Project) (y m : Int) (p : String) :
    (∀ r, r ∈ scope_set df y m p ↔
      r ∈ active_df df y m p ∨ r ∈ completed_df df y m p) ∧
    (∀ r, ¬(r ∈ active_df df y m p ∧ r ∈ completed_df df y m p)) ∧
    (∀ r, r ∈ active_df df y m p ↔ r ∈ scope_set df y m p ∧ r.status ≠ "완료") ∧
    (∀ r, r ∈ completed_df df y m p ↔ r ∈ scope_set df y m p ∧ r.status = "완료") ∧
    (scope_set df y m p).length =
      (active_df df y m p).length + (completed_df df y m p).length := by
  refine ⟨?_, ?_, ?_, ?_, ?_⟩
  · intro r
    constructor
    · intro h
      by_cases hs : r.status = "완료"
      · exact Or.inr (List.mem_filter.mpr ⟨h, by simp [hs]⟩)
      · exact Or.inl (List.mem_filter.mpr ⟨h, by simp [hs]⟩)
    · rintro (h | h) <;> exact List.mem_of_mem_filter h
  · rintro r ⟨ha, hc⟩
    have h1 := (List.mem_filter.mp ha).2
    have h2 := (List.mem_filter.mp hc).2
    simp only [Bool.not_eq_true', beq_eq_false_iff_ne, ne_eq] at h1
    simp only [beq_iff_eq] at h2
    exact h1 h2
  · intro r
    simp [active_df, List.mem_filter]
  · intro r
    simp [completed_df, List.mem_filter]
  · have h : (scope_set df y m p).length =
        ((scope_set df y m p).filter (fun r => r.status == "완료")).length +
        ((scope_set df y m p).filter (fun r => !(r.status == "완료"))).length :=
      List.length_eq_length_filter_add (fun r => r.status == "완료")
    simp only [active_df, completed_df]
    omega

/-- Claim C3: a record whose status equals the terminal value is never
displayed urgent, whatever its preview date and whatever today is — the
urgency used by the title selection is forced off for finished records. -/
theorem urgency_done_off (r : Project) (today : Date) (h : r.status = "완료") :
    render_urgent r today = false := by
  simp [render_urgent, h]

/-- Claim C4: the D-day computation outputs the empty string and a false
flag when the preview date is blank or unparseable; otherwise, writing
days_left for the day difference, a negative days_left yields the overdue
string with its absolute value and a false flag, zero yields the due-today
string with a true flag, and a positive days_left yields the due-in-days
string with the flag true exactly when days_left is at most 3. -/
theorem dday_spec (s : String) (today : Date) :
    (sisa_parse s = none → dday s today = ("", false)) ∧
    (∀ dt, sisa_parse s = some dt →
      (toDays dt - toDays today < 0 →
        dday s today =
          ("(D+" ++ toString (toDays dt - toDays today).natAbs ++ ")", false)) ∧
      (toDays dt - toDays today = 0 → dday s today = ("(D-Day)", true)) ∧
      (0 < toDays dt - toDays today →
        (dday s today).1 = "(D-" ++ toString (toDays dt - toDays today) ++ ")" ∧
        ((dday s today).2 = true ↔ toDays dt - toDays today ≤ 3))) := by
  constructor
  · intro h
    simp [dday, h]
  · intro dt hdt
    refine ⟨?_, ?_, ?_⟩
    · intro hneg
      simp [dday, hdt, hneg, if_pos]
    · intro hzero
      rw [dday, hdt]
      simp only [hzero]
      norm_num
    · intro hpos
      have hne : ¬(toDays dt - toDays today < 0) := by omega
      have hnz : ¬(toDays dt - toDays today = 0) := by omega
      rw [dday, hdt]
      simp only [hne, hnz, if_false]
      exact ⟨by simp, by simp [decide_eq_true_iff]⟩

/-- Claim C5: a create request whose name is blank after trimming is
rejected — the canonical set is unchanged and no persist call is made;
otherwise exactly one fully-populated record is appended at the end (all
eight stage fields empty, the preview date empty when not given) and the
whole new set is persisted once. -/
theorem create_spec (df : List Project) (q : CreateReq) :
    (trimL q.name.data = [] → create df q = (df, [])) ∧
    (trimL q.name.data ≠ [] →
      (create df q).1 = df ++ [mkRecord q] ∧
      (create df q).2 = [df ++ [mkRecord q]] ∧
      (mkRecord q).plan = "" ∧ (mkRecord q).shoot = "" ∧ (mkRecord q).edit = "" ∧
      (mkRecord q).design = "" ∧ (mkRecord q).cg = "" ∧ (mkRecord q).color = "" ∧
      (mkRecord q).sfx = "" ∧ (mkRecord q).bgm = "" ∧
      (q.sisa = none → (mkRecord q).sisa = "")) := by
  constructor
  · intro h
    simp [create, h]
  · intro h
    refine ⟨by simp [create, h], by simp [create, h], rfl, rfl, rfl, rfl, rfl,
      rfl, rfl, rfl, ?_⟩
    intro hs
    simp [mkRecord, hs]

/-- Claim C6: the Loader never raises to its caller — it is a total
function of the (possibly failed) raw read — and in the failure case it
returns an empty canonical set that still carries all 15 required columns
in the fixed order. -/
theorem load_fail_soft :
    load_data none = { cols := default_columns, rows := [] } ∧
    default_columns.length = 15 := ⟨rfl, rfl⟩

/-- Claim C7: for every rectangular raw table, the canonical set produced
by the Loader has all 15 required columns, stays rectangular (every field
present in every record), contains no null cell, and any required column
absent after the noise removal was added with the empty-string value in
every record. -/
theorem load_shape (f : Frame) (hwf : WF f) :
    (∀ c ∈ default_columns, c ∈ (load_data (some f)).cols) ∧
    WF (load_data (some f)) ∧
    (∀ r ∈ (load_data (some f)).rows, ∀ x ∈ r, x.isSome = true) ∧
    (∀ c ∈ default_columns, c ∉ (dropBlankCols (dropBlankRows f)).cols →
      ∀ r ∈ (addMissing (dropBlankCols (dropBlankRows f))).rows,
        cellAt (addMissing (dropBlankCols (dropBlankRows f))).cols r c = some "") := by
  have hwfg : WF (dropBlankCols (dropBlankRows f)) :=
    wf_dropBlankCols _ (wf_dropBlankRows f hwf)
  by_cases hE : f.rows.isEmpty || f.cols.isEmpty
  · refine ⟨?_, ?_, ?_, ?_⟩
    · intro c hc
      simpa [load_data, hE] using hc
    · intro r hr
      simp [load_data, hE] at hr
    · intro r hr
      simp [load_data, hE] at hr
    · intro c hc hno r hr
      exact foldl_addCol_cellEmpty default_columns _ hwfg c
        (fun r0 hr0 hcg => absurd hcg hno) r hr
        (mem_foldl_addCol default_columns _ c hc)
  · have hred : load_data (some f) =
        fillStatus (fillna (addMissing (dropBlankCols (dropBlankRows f)))) := by
      simp [load_data, hE]
    have hwf1 : WF (addMissing (dropBlankCols (dropBlankRows f))) :=
      wf_foldl_addCol default_columns _ hwfg
    refine ⟨?_, ?_, ?_, ?_⟩
    · intro c hc
      rw [hred, fillStatus_cols, fillna_cols]
      exact mem_foldl_addCol default_columns _ c hc
    · rw [hred]
      exact wf_fillStatus _ (wf_fillna _ hwf1)
    · rw [hred]
      exact pipeline_cells_isSome _
    · intro c hc hno r hr
      exact foldl_addCol_cellEmpty default_columns _ hwfg c
        (fun r0 hr0 hcg => absurd hcg hno) r hr
        (mem_foldl_addCol default_columns _ c hc)

/-- Claim C2 (amended): after a load, every record's status is a
non-empty string — an empty or missing raw status has been replaced by
the default value "기획" — but an unrecognized non-empty raw status is
kept verbatim, so membership in the fixed vocabulary is not guaranteed. -/
theorem load_status_filled (f : Frame) (hwf : WF f) :
    ∀ r ∈ (load_data (some f)).rows,
      ∃ s, cellAt (load_data (some f)).cols r "진행상태" = some s ∧ s ≠ "" := by
  by_cases hE : f.rows.isEmpty || f.cols.isEmpty
  · intro r hr
    simp [load_data, hE] at hr
  · have hred : load_data (some f) =
        fillStatus (fillna (addMissing (dropBlankCols (dropBlankRows f)))) := by
      simp [load_data, hE]
    rw [hred]
    have hwf1 : WF (addMissing (dropBlankCols (dropBlankRows f))) :=
      wf_foldl_addCol default_columns _ (wf_dropBlankCols _ (wf_dropBlankRows f hwf))
    exact pipeline_status_filled _ hwf1
      (mem_foldl_addCol default_columns _ "진행상태" (by decide))

/-- Claim C2 (counterexample): the Loader preserves the unrecognized
non-empty status "미정" verbatim, so the loaded record's status is not a
member of the fixed vocabulary, refuting the claim that every loaded
status is. -/
theorem load_status_vocab_cex :
    (load_data (some rawMixedFrame)).rows = [rawMixedRow] ∧
    cellAt (load_data (some rawMixedFrame)).cols rawMixedRow "진행상태" = some "미정" ∧
    status_options.contains "미정" = false := ⟨by decide, by decide, by decide⟩

/-- Claim C8: deleting an in-range position removes exactly that record —
the result is one shorter, earlier positions are untouched and every later
record shifts down by one — while an out-of-range position signals
not-found and applies no mutation. -/
theorem delete_spec (df : List Project) (p : Nat) :
    (p < df.length →
      ∃ out, deleteAt df p = some out ∧
        out.length = df.length - 1 ∧
        (∀ i, i < p → out[i]? = df[i]?) ∧
        (∀ i, p ≤ i → out[i]? = df[i + 1]?)) ∧
    (df.length ≤ p → deleteAt df p = none) := by
  constructor
  · intro h
    refine ⟨df.eraseIdx p, by simp [deleteAt, h], ?_, ?_, ?_⟩
    · rw [List.length_eraseIdx]
      simp [h]
    · intro i hi
      exact List.getElem?_eraseIdx_of_lt df p i hi
    · intro i hi
      exact List.getElem?_eraseIdx_of_ge df p i hi
  · intro h
    have h2 : ¬ p < df.length := by omega
    simp [deleteAt, h2]

/-- Claim C9: an update writes only the status, description, owner, the
eight stage fields and the preview date of the addressed record; its year,
month and name are unchanged, and every other record of the canonical set
is untouched. -/
theorem update_spec (df : List Project) (p : Nat) (e : EditFields)
    (h : p < df.length) :
    ∃ r, df[p]? = some r ∧
      updateAt df p e = df.set p (applyEdit r e) ∧
      (updateAt df p e)[p]? = some (applyEdit r e) ∧
      (applyEdit r e).year = r.year ∧
      (applyEdit r e).month = r.month ∧
      (applyEdit r e).name = r.name ∧
      (applyEdit r e).status = e.status ∧
      (applyEdit r e).desc = e.desc ∧
      (applyEdit r e).pd = e.pd ∧
      (applyEdit r e).plan = e.plan ∧
      (applyEdit r e).shoot = e.shoot ∧
      (applyEdit r e).edit = e.edit ∧
      (applyEdit r e).design = e.design ∧
      (applyEdit r e).cg = e.cg ∧
      (applyEdit r e).color = e.color ∧
      (applyEdit r e).sfx = e.sfx ∧
      (applyEdit r e).bgm = e.bgm ∧
      (∀ j, j ≠ p → (updateAt df p e)[j]? = df[j]?) := by
  cases hr : df[p]? with
  | none =>
    rw [List.getElem?_eq_none_iff] at hr
    omega
  | some r =>
    refine ⟨r, rfl, by simp [updateAt, hr], ?_, rfl, rfl, rfl, rfl, rfl, rfl,
      rfl, rfl, rfl, rfl, rfl, rfl, rfl, rfl, ?_⟩
    · simp only [updateAt, hr]
      exact List.getElem?_set_self h
    · intro j hj
      simp only [updateAt, hr]
      exact List.getElem?_set_ne (fun hh => hj hh.symm)

/-- Claim C10: for a create request whose name is non-blank after
trimming, the stored record's name is the raw input string verbatim —
trimming is applied only in the validation check. -/
theorem create_name_verbatim (df : List Project) (q : CreateReq)
    (h : trimL q.name.data ≠ []) :
    (create df q).1 = df ++ [mkRecord q] ∧ (mkRecord q).name = q.name := by
  exact ⟨by simp [create, h], rfl⟩

/-! ### Witnesses: each claim theorem applied at a concrete input -/

/-- Witness for C1: the partition statement at a concrete record set. -/
theorem view_partition_witness :
    (pA ∈ scope_set dfW 2024 5 "전체" ↔
      pA ∈ active_df dfW 2024 5 "전체" ∨ pA ∈ completed_df dfW 2024 5 "전체") ∧
    (scope_set dfW 2024 5 "전체").length =
      (active_df dfW 2024 5 "전체").length + (completed_df dfW 2024 5 "전체").length :=
  ⟨(view_partition dfW 2024 5 "전체").1 pA, (view_partition dfW 2024 5 "전체").2.2.2.2⟩

/-- Witness for C3: a finished record whose preview date is exactly today
is still not displayed urgent. -/
theorem urgency_done_off_witness :
    pB.status = "완료" ∧ render_urgent pB ⟨2024, 5, 10⟩ = false :=
  ⟨rfl, urgency_done_off pB ⟨2024, 5, 10⟩ rfl⟩

/-- Witness for C4: a date two days out is urgent with string "(D-2)",
and a blank preview date yields the empty string and a false flag. -/
theorem dday_spec_witness :
    sisa_parse "2024-05-10" = some ⟨2024, 5, 10⟩ ∧
    (dday "2024-05-10" ⟨2024, 5, 8⟩).1 = "(D-2)" ∧
    (dday "2024-05-10" ⟨2024, 5, 8⟩).2 = true ∧
    dday "" ⟨2024, 5, 8⟩ = ("", false) := by
  have h := (dday_spec "2024-05-10" ⟨2024, 5, 8⟩).2 ⟨2024, 5, 10⟩ (by decide)
  have h3 := h.2.2 (by decide)
  refine ⟨by decide, ?_, h3.2.mpr (by decide), (dday_spec "" ⟨2024, 5, 8⟩).1 (by decide)⟩
  rw [h3.1]
  decide

/-- Witness for C5: the blank-name request is rejected without persisting
and the valid request appends one record and persists the new set. -/
theorem create_spec_witness :
    (trimL qBlank.name.data = [] ∧ create dfW qBlank = (dfW, [])) ∧
    (trimL qOk.name.data ≠ [] ∧
      (create dfW qOk).1 = dfW ++ [mkRecord qOk] ∧
      (create dfW qOk).2 = [dfW ++ [mkRecord qOk]]) := by
  have h2 := (create_spec dfW qOk).2 (by decide)
  exact ⟨⟨by decide, (create_spec dfW qBlank).1 (by decide)⟩,
    ⟨by decide, h2.1, h2.2.1⟩⟩

/-- Witness for C7: the loaded shape facts at a concrete noisy frame, and
the column-completion fact for the absent required column "월". -/
theorem load_shape_witness :
    WF rawShapeFrame ∧ WF (load_data (some rawShapeFrame)) ∧
    cellAt (addMissing (dropBlankCols (dropBlankRows rawShapeFrame))).cols
      addedRow "월" = some "" :=
  ⟨by decide, (load_shape rawShapeFrame (by decide)).2.1,
    (load_shape rawShapeFrame (by decide)).2.2.2 "월" (by decide) (by decide)
      addedRow (by decide)⟩

/-- Witness for C2 (amended): the row loaded from a frame with a missing
status cell carries a non-empty status. -/
theorem load_status_filled_witness :
    WF rawBlankStatusFrame ∧
    loadedBlankStatusRow ∈ (load_data (some rawBlankStatusFrame)).rows ∧
    (∃ s, cellAt (load_data (some rawBlankStatusFrame)).cols
      loadedBlankStatusRow "진행상태" = some s ∧ s ≠ "") :=
  ⟨by decide, by decide,
    load_status_filled rawBlankStatusFrame (by decide) loadedBlankStatusRow (by decide)⟩

/-- Witness for C8: deleting position 2 of a five-record set leaves four
records with the later ones shifted down, and position 9 signals
not-found. -/
theorem delete_spec_witness :
    2 < dfW5.length ∧
    (∃ out, deleteAt dfW5 2 = some out ∧
      out.length = dfW5.length - 1 ∧
      (∀ i, i < 2 → out[i]? = dfW5[i]?) ∧
      (∀ i, 2 ≤ i → out[i]? = dfW5[i + 1]?)) ∧
    deleteAt dfW5 9 = none :=
  ⟨by decide, (delete_spec dfW5 2).1 (by decide), (delete_spec dfW5 9).2 (by decide)⟩

/-- Witness for C9: updating record 0 of the three-record set. -/
theorem update_spec_witness :
    0 < dfW.length ∧
    (∃ r, dfW[0]? = some r ∧
      updateAt dfW 0 eW = dfW.set 0 (applyEdit r eW) ∧
      (updateAt dfW 0 eW)[0]? = some (applyEdit r eW) ∧
      (applyEdit r eW).year = r.year ∧
      (applyEdit r eW).month = r.month ∧
      (applyEdit r eW).name = r.name ∧
      (applyEdit r eW).status = eW.status ∧
      (applyEdit r eW).desc = eW.desc ∧
      (applyEdit r eW).pd = eW.pd ∧
      (applyEdit r eW).plan = eW.plan ∧
      (applyEdit r eW).shoot = eW.shoot ∧
      (applyEdit r eW).edit = eW.edit ∧
      (applyEdit r eW).design = eW.design ∧
      (applyEdit r eW).cg = eW.cg ∧
      (applyEdit r eW).color = eW.color ∧
      (applyEdit r eW).sfx = eW.sfx ∧
      (applyEdit r eW).bgm = eW.bgm ∧
      (∀ j, j ≠ 0 → (updateAt dfW 0 eW)[j]? = dfW[j]?)) :=
  ⟨by decide, update_spec dfW 0 eW (by decide)⟩

/-- Witness for C10: a name with surrounding whitespace is stored
verbatim. -/
theorem create_name_verbatim_witness :
    trimL qWs.name.data ≠ [] ∧
    (create dfW qWs).1 = dfW ++ [mkRecord qWs] ∧
    (mkRecord qWs).name = "  여백 프로젝트  " := by
  have h := create_name_verbatim dfW qWs (by decide)
  exact ⟨by decide, h.1, h.2⟩

end MpvWork
